import Mathlib

/-!
Verification development for the lfcbot repository.

The Python sources are shallowly embedded as Lean definitions:

* `rapidapi.py` — the sports-data models (`FixtureResponse`, `Lineup`, ...)
  and the pure formatting functions `format_form` and `Lineup.format_lineup`.
  Python datetimes are modelled as `Int` seconds since the Unix epoch (UTC);
  fallible Python code (functions that can raise) returns `Option`.
* `lfc.py` — the `PostDeduper` ledger (with its flat-file save/load modelled
  on `List Char` file contents), the per-cycle coordinator logic of `main`
  (fixture gate, publish, discussion rotation) as an explicit state-passing
  function over an environment of collaborator behaviours, and the
  lineup-enrichment `update_task` retry loop.

Remote collaborators (the Lemmy HTTP API, the rapidapi HTTP endpoints) are
modelled by their observable outcomes, supplied in an environment record;
every remote call the coordinator makes is recorded as an `Event`.
-/

/-! ## rapidapi.py data model -/

/-- `class Status` in rapidapi.py. -/
structure Status where
  long : String
  short : String
deriving DecidableEq, Repr

/-- `class Venue` in rapidapi.py. -/
structure Venue where
  city : String
  name : String
deriving DecidableEq, Repr

/-- `class Fixture` in rapidapi.py; the `date` datetime is modelled as
seconds since the Unix epoch (UTC).  The `periods`/`timezone` fields are
never read by the code under verification and are omitted. -/
structure Fixture where
  date : Int
  id : Nat
  referee : Option String
  status : Status
  timestamp : Int
  venue : Venue
deriving DecidableEq, Repr

/-- `class Team` in rapidapi.py (the `logo` URL field is never read by the
formatting logic and is omitted). -/
structure Team where
  id : Nat
  name : String
  winner : Option Bool
deriving DecidableEq, Repr

/-- `class Teams` in rapidapi.py. -/
structure Teams where
  away : Team
  home : Team
deriving DecidableEq, Repr

/-- `class Goals` in rapidapi.py. -/
structure Goals where
  away : Option Int
  home : Option Int
deriving DecidableEq, Repr

/-- `class League` in rapidapi.py (URL fields omitted). -/
structure League where
  country : String
  id : Nat
  name : String
  round : String
  season : Int
deriving DecidableEq, Repr

/-- `class FixtureResponse` in rapidapi.py. -/
structure FixtureResponse where
  fixture : Fixture
  league : League
  teams : Teams
  goals : Goals
deriving DecidableEq, Repr

/-- Python rendering of an `Optional[int]` inside an f-string:
`None` prints as `"None"`, an int prints as its decimal digits. -/
def showOptInt : Option Int → String
  | none => "None"
  | some n => toString n

/-- The body of the `for fixture in reversed(fixtures)` loop of
`format_form` (rapidapi.py lines 178-193): the entry string contributed by
one fixture, `none` when the fixture contributes nothing (not full-time, or
the team is not involved).  Python truthiness of `Optional[bool]` winner
flags means only `Some true` counts as a win marker. -/
def formEntry (team_id : Nat) (fx : FixtureResponse) : Option String :=
  if fx.fixture.status.short = "FT" then
    if fx.teams.home.id = team_id then
      some (if fx.teams.home.winner = some true then
              "W 🟢 [" ++ showOptInt fx.goals.home ++ "-" ++ showOptInt fx.goals.away ++ "] vs " ++ fx.teams.away.name
            else if fx.teams.away.winner = some true then
              "L 🔴 [" ++ showOptInt fx.goals.home ++ "-" ++ showOptInt fx.goals.away ++ "] vs " ++ fx.teams.away.name
            else
              "D 🟡 [" ++ showOptInt fx.goals.home ++ "-" ++ showOptInt fx.goals.away ++ "] vs " ++ fx.teams.away.name)
    else if fx.teams.away.id = team_id then
      some (if fx.teams.away.winner = some true then
              "W 🟢 [" ++ showOptInt fx.goals.away ++ "-" ++ showOptInt fx.goals.home ++ "] at " ++ fx.teams.home.name
            else if fx.teams.home.winner = some true then
              "L 🔴 [" ++ showOptInt fx.goals.away ++ "-" ++ showOptInt fx.goals.home ++ "] at " ++ fx.teams.home.name
            else
              "D 🟡 [" ++ showOptInt fx.goals.away ++ "-" ++ showOptInt fx.goals.home ++ "] at " ++ fx.teams.home.name)
    else none
  else none

/-- The list of form entries accumulated by `format_form`'s loop, which
iterates over `reversed(fixtures)` and appends an entry per qualifying
fixture. -/
def formEntries (fixtures : List FixtureResponse) (team_id : Nat) : List String :=
  fixtures.reverse.foldl
    (fun acc fx => match formEntry team_id fx with
      | some e => acc ++ [e]
      | none => acc) []

/-- `format_form` in rapidapi.py (lines 165-195): a fenced code block whose
lines are the entries of the reversed fixture list. -/
def format_form (fixtures : List FixtureResponse) (team_id : Nat) : String :=
  String.intercalate "\n" (["```"] ++ formEntries fixtures team_id ++ ["```"])

/-- `class Player` in rapidapi.py (lines 103-120).  `grid` is the raw
`"row:col"` string, optional. -/
structure Player where
  id : Nat
  name : String
  number : Nat
  pos : Option String
  grid : Option String
deriving DecidableEq, Repr

/-- The decimal value of a digit character, `none` for a non-digit. -/
def digitVal (c : Char) : Option Nat :=
  if c.isDigit then some (c.toNat - '0'.toNat) else none

/-- Python `int(...)` on a digit string: `none` on empty or non-digit
input (where Python raises). -/
def parseNatChars (cs : List Char) : Option Nat :=
  if cs = [] then none
  else cs.foldl (fun acc c => acc.bind (fun n => (digitVal c).map (fun d => n * 10 + d))) (some 0)

/-- Python `int(...)` with an optional leading minus sign. -/
def parseIntChars : List Char → Option Int
  | '-' :: cs => (parseNatChars cs).map (fun n => -(n : Int))
  | cs => (parseNatChars cs).map (fun n => (n : Int))

/-- `grid.split(":")[0]`: the characters before the first colon. -/
def gridRowPart (cs : List Char) : List Char :=
  cs.takeWhile (fun c => c ≠ ':')

/-- `grid.split(":")[1]`: the characters between the first and second
colon; `none` when there is no colon (Python raises `IndexError`). -/
def gridColPart (cs : List Char) : Option (List Char) :=
  match cs.dropWhile (fun c => c ≠ ':') with
  | [] => none
  | _ :: rest => some (rest.takeWhile (fun c => c ≠ ':'))

/-- `Player.grid_row`: `int(self.grid.split(":")[0])` when `grid` is set;
a malformed grid (no leading integer) is modelled as `none` as well. -/
def Player.grid_row (p : Player) : Option Int :=
  p.grid.bind (fun g => parseIntChars (gridRowPart g.toList))

/-- `Player.grid_col`: `int(self.grid.split(":")[1])` when `grid` is set;
a malformed grid is modelled as `none`. -/
def Player.grid_col (p : Player) : Option Int :=
  p.grid.bind (fun g => (gridColPart g.toList).bind parseIntChars)

/-- `class Squad` in rapidapi.py. -/
structure Squad where
  player : Player
deriving DecidableEq, Repr

/-- `class Coach` in rapidapi.py. -/
structure Coach where
  id : Nat
  name : String
  photo : Option String
deriving DecidableEq, Repr

/-- `class Lineup` in rapidapi.py. -/
structure Lineup where
  team : Team
  coach : Coach
  formation : String
  startXI : List Squad
  substitutes : List Squad
deriving DecidableEq, Repr

/-- Python `squad.player.grid_row or -1`: `None` is falsy, and so is the
int `0`, so both default to `-1`. -/
def gridRowOrNeg (p : Player) : Int :=
  match p.grid_row with
  | none => -1
  | some r => if r = 0 then -1 else r

/-- Python `player.grid_col or -1` (same truthiness defaulting). -/
def gridColOrNeg (p : Player) : Int :=
  match p.grid_col with
  | none => -1
  | some c => if c = 0 then -1 else c

/-- `sorted(set(xs), reverse=True)`: the distinct values in descending
order. -/
def sortedDistinctDesc (xs : List Int) : List Int :=
  xs.dedup.insertionSort (fun a b => b ≤ a)

/-- CPython `str.center(width)`: returns `s` unchanged when `width ≤ len`,
otherwise pads with spaces, the left pad being
`marg // 2 + (marg & width & 1)`. -/
def pyCenter (s : String) (width : Nat) : String :=
  let l := s.length
  if width ≤ l then s
  else
    let marg := width - l
    let left := marg / 2 + (marg &&& width &&& 1)
    String.mk (List.replicate left ' ') ++ s ++ String.mk (List.replicate (marg - left) ' ')

/-- The per-row strings built by `Lineup.format_lineup`'s first loop
(rapidapi.py lines 143-146): one string per distinct
`grid_row or -1` value, players of that exact row (note Python's
`player.grid_row == grid_row` compares `Optional[int]` against the
defaulted int, so a `None` row never matches `-1`), sorted stably by
`grid_col or -1`. -/
def startingRowStrings (l : Lineup) : List String :=
  (sortedDistinctDesc (l.startXI.map (fun s => gridRowOrNeg s.player))).map
    (fun gridRow =>
      let players := (l.startXI.map Squad.player).filter
        (fun p => p.grid_row = some gridRow)
      let players := players.insertionSort (fun a b => gridColOrNeg a ≤ gridColOrNeg b)
      String.intercalate ",  " (players.map Player.name) ++ ";")

/-- `Lineup.format_lineup` (rapidapi.py lines 140-151).  The
`max(len(line) for line in starting_strs)` call raises `ValueError` on an
empty sequence, so the function is modelled as returning `none` exactly
when no row string was produced. -/
def Lineup.format_lineup (l : Lineup) : Option String :=
  let starting_strs := startingRowStrings l
  match (starting_strs.map String.length).max? with
  | none => none
  | some max_length =>
    let starting_strs := starting_strs.map (fun line => pyCenter line max_length)
    let starting_str := String.intercalate "\n\n" starting_strs
    let bench_str := "Bench: " ++ String.intercalate ", " (l.substitutes.map (fun s => s.player.name))
    some (String.intercalate "\n\n" [starting_str, bench_str])

/-- `class LineupResponse` in rapidapi.py. -/
structure LineupResponse where
  response : List Lineup
deriving DecidableEq, Repr

/-- `LineupResponse.get_team_lineup` (rapidapi.py lines 157-162): the first
lineup whose team id matches, `none` modelling the `ValueError` raised when
no lineup matches. -/
def LineupResponse.get_team_lineup (r : LineupResponse) (team_id : Nat) : Option Lineup :=
  r.response.find? (fun l => l.team.id == team_id)

/-! ## lfc.py — PostDeduper and its flat-file persistence

The `posted.txt` file's contents are modelled as a `List Char`; the
in-memory Python `set` is modelled as a duplicate-free `List String`
(insertion-ordered enumeration of the set). -/

/-- Python `str.strip()` on a list of characters: drop leading and
trailing whitespace. -/
def striplist (l : List Char) : List Char :=
  ((l.dropWhile Char.isWhitespace).reverse.dropWhile Char.isWhitespace).reverse

/-- Worker for `splitlines`: `acc` is the current (unterminated) line. -/
def splitlinesAux : List Char → List Char → List (List Char)
  | [], acc => if acc = [] then [] else [acc]
  | c :: rest, acc =>
    if c = '\n' then acc :: splitlinesAux rest []
    else splitlinesAux rest (acc ++ [c])

/-- Python iteration over a text file's lines (followed by `strip`, this
matches `str.splitlines` for `'\n'`-separated content): the empty file has
no lines, a final unterminated line still counts. -/
def splitlines (content : List Char) : List (List Char) :=
  splitlinesAux content []

/-- `"\n".join(...)` over the set's enumeration. -/
def joinLines : List (List Char) → List Char
  | [] => []
  | [x] => x
  | x :: rest => x ++ '\n' :: joinLines rest

/-- Python `set.add`: no-op when the key is present, otherwise the key
joins the enumeration. -/
def setAdd (posted : List String) (key : String) : List String :=
  if key ∈ posted then posted else posted ++ [key]

/-- `PostDeduper._save` (lfc.py lines 50-52): the file is rewritten in full
with `"\n".join(self.posted)`. -/
def deduperSave (posted : List String) : List Char :=
  joinLines (posted.map String.toList)

/-- `PostDeduper._load` (lfc.py lines 43-48): each line of the file,
stripped, joins the set. -/
def deduperLoad (content : List Char) : List String :=
  (splitlines content).map (fun l => (striplist l).asString)

/-- `PostDeduper.fixture_key` (lfc.py line 54-55). -/
def fixture_key (fixtureid : Nat) : String :=
  "fixture-" ++ toString fixtureid

/-- `PostDeduper.fixture_published` (lfc.py lines 60-61). -/
def fixture_published (posted : List String) (fixtureid : Nat) : Bool :=
  fixture_key fixtureid ∈ posted

/-- `PostDeduper.add_fixture` (lfc.py lines 66-68): inserts the key; the
caller pairs this with `deduperSave` of the new set (the full-set rewrite
of `_save`). -/
def add_fixture (posted : List String) (fixtureid : Nat) : List String :=
  setAdd posted (fixture_key fixtureid)

/-- Python `weekday()` for an epoch timestamp (0 = Monday; the epoch,
1970-01-01, was a Thursday, weekday 3). -/
def weekdayOf (t : Int) : Int :=
  ((t.fdiv 86400) + 3) % 7

/-- Days-to-civil-date conversion (proleptic Gregorian), as performed by
Python's `datetime` for `strftime("%Y-%m-%d")`: year, month, day from a
day number relative to 1970-01-01. -/
def civilFromDays (z0 : Int) : Int × Int × Int :=
  let z := z0 + 719468
  let era := z.fdiv 146097
  let doe := z - era * 146097
  let yoe := (doe - doe.fdiv 1460 + doe.fdiv 36524 - doe.fdiv 146096).fdiv 365
  let y := yoe + era * 400
  let doy := doe - (365 * yoe + yoe.fdiv 4 - yoe.fdiv 100)
  let mp := (5 * doy + 2).fdiv 153
  let d := doy - (153 * mp + 2).fdiv 5 + 1
  let m := mp + (if mp < 10 then 3 else (-9 : Int))
  (y + (if m ≤ 2 then 1 else 0), m, d)

/-- Zero-padded decimal rendering of a day/month number. -/
def pad2 (n : Int) : String :=
  if n < 10 then "0" ++ toString n else toString n

/-- `strftime("%Y-%m-%d")` for an epoch timestamp. -/
def dateString (t : Int) : String :=
  let c := civilFromDays (t.fdiv 86400)
  toString c.1 ++ "-" ++ pad2 c.2.1 ++ "-" ++ pad2 c.2.2

/-- `PostDeduper.discussion_key` (lfc.py lines 57-58): the key carries
only the calendar date of the datetime. -/
def discussion_key (t : Int) : String :=
  "discussion-" ++ dateString t

/-- `PostDeduper.discussion_published` (lfc.py lines 63-64). -/
def discussion_published (posted : List String) (t : Int) : Bool :=
  discussion_key t ∈ posted

/-- `PostDeduper.add_discussion` (lfc.py lines 70-72). -/
def add_discussion (posted : List String) (t : Int) : List String :=
  setAdd posted (discussion_key t)

/-- A string that survives the save/load cycle as its own line: non-empty,
newline-free, and fixed by `strip`. -/
def LineSafe (k : String) : Prop :=
  k.toList ≠ [] ∧ '\n' ∉ k.toList ∧ striplist k.toList = k.toList

instance : DecidablePred LineSafe := fun k => by
  unfold LineSafe; infer_instance

/-! ## lemmybot/post.py data model (the fields the coordinator reads) -/

/-- `class Post` in lemmybot/post.py (listed posts always carry an id). -/
structure Post where
  id : Nat
  name : String
  community_id : Nat
deriving DecidableEq, Repr

/-- `class Creator` in lemmybot/post.py. -/
structure Creator where
  id : Nat
  name : String
deriving DecidableEq, Repr

/-- `class PostView` in lemmybot/post.py. -/
structure PostView where
  post : Post
  creator : Creator
deriving DecidableEq, Repr

/-! ## lfc.py — the polling-cycle coordinator (`main`, lines 93-174)

The cycle is modelled from the fixture loop on: the discovery batch is an
input, remote collaborators are summarised by an `Env` of observable
outcomes, each successive `datetime.utcnow()` call reads the next value of
`Env.clock`, and every remote call is recorded as an `Event`. An uncaught
Python exception is modelled by the `aborted` flag: once set, nothing else
in the cycle runs. -/

/-- `LFC_COMMUNITY_ID` (lfc.py line 23). -/
def LFC_COMMUNITY_ID : Nat := 11742

/-- `RAPID_API_TEAM_ID` (lfc.py line 24). -/
def RAPID_API_TEAM_ID : Nat := 40

/-- The remote calls the coordinator can make during a cycle. -/
inductive Event where
  | formFetch (teamId : Nat)
  | publish (fixtureId : Nat)
  | discussionPublish
  | unpin (postId : Nat)
  | pin (postId : Nat)
deriving DecidableEq, Repr

/-- Collaborator behaviour for one cycle: the successive `utcnow()`
readings, which remote calls raise, the community listing returned by
`get_new_posts`, the bot's login name, and the id the platform assigns to
the newly published discussion post. -/
structure Env where
  clock : Nat → Int
  formFails : Nat → Bool
  publishFails : Nat → Bool
  recentPosts : List PostView
  botUsername : String
  newDiscussionPostId : Nat

/-- Mutable cycle state: the deduper's set, the calls made so far, how many
`utcnow()` readings have been consumed, the fixture ids whose
lineup-enrichment task was spawned, and whether an uncaught exception has
ended the cycle. -/
structure CycleState where
  ledger : List String
  events : List Event
  clockIdx : Nat
  scheduled : List Nat
  aborted : Bool
deriving Repr

/-- One iteration of the fixture loop (lfc.py lines 95-146): the 4-hour
window gate reads a fresh `utcnow()`, the deduper gate consults the current
set, recent-form fetch errors are caught (a failing home fetch also skips
the away fetch), and a `publish_post` error escapes and aborts the cycle;
on success the fixture key is recorded and the enrichment task spawned. -/
def processFixture (env : Env) (st : CycleState) (fx : FixtureResponse) : CycleState :=
  if st.aborted then st else
  let now := env.clock st.clockIdx
  let st := { st with clockIdx := st.clockIdx + 1 }
  if fx.fixture.date < now + 4*3600 then
    if ¬ fixture_published st.ledger fx.fixture.id then
      let st := { st with events := st.events ++ [Event.formFetch fx.teams.home.id] }
      let st := if env.formFails fx.teams.home.id then st
                else { st with events := st.events ++ [Event.formFetch fx.teams.away.id] }
      let st := { st with events := st.events ++ [Event.publish fx.fixture.id] }
      if env.publishFails fx.fixture.id then { st with aborted := true }
      else { st with ledger := add_fixture st.ledger fx.fixture.id,
                     scheduled := st.scheduled ++ [fx.fixture.id] }
    else st
  else st

/-- The monday value computed at lfc.py line 148: the code calls
`datetime.utcnow()` twice in that expression, first for the base time and
then for the weekday. -/
def discussionMonday (env : Env) (clockIdx : Nat) : Int :=
  env.clock clockIdx - weekdayOf (env.clock (clockIdx + 1)) * 86400

/-- Python `str.startswith`, on the character lists. -/
def pyStartsWith (s pre : String) : Bool :=
  pre.toList.isPrefixOf s.toList

/-- The posts unpinned by the discussion rotation (lfc.py lines 161-165):
listed posts whose title starts with the discussion title and whose creator
is the bot's own account. -/
def discussionPostsToUnpin (env : Env) : List PostView :=
  env.recentPosts.filter
    (fun pv => pyStartsWith pv.post.name "Weekly Discussion Thread"
      && pv.creator.name == env.botUsername)

/-- The discussion-rotation step (lfc.py lines 147-169): if this week's
Monday key is not in the deduper, unpin each matching prior post, publish
the new discussion post, pin it, and record the Monday key. -/
def discussionStep (env : Env) (st : CycleState) : CycleState :=
  if st.aborted then st else
  let monday := discussionMonday env st.clockIdx
  let st := { st with clockIdx := st.clockIdx + 2 }
  if ¬ discussion_published st.ledger monday then
    { st with
      events := st.events ++ (discussionPostsToUnpin env).map (fun pv => Event.unpin pv.post.id)
        ++ [Event.discussionPublish, Event.pin env.newDiscussionPostId],
      ledger := add_discussion st.ledger monday }
  else st

/-- The state a cycle starts from: the loaded ledger, no calls yet. -/
def initState (ledger : List String) : CycleState :=
  ⟨ledger, [], 0, [], false⟩

/-- The fixture loop over the whole discovery batch. -/
def runFixtures (env : Env) (st : CycleState) (fxs : List FixtureResponse) : CycleState :=
  fxs.foldl (processFixture env) st

/-- A full polling cycle from the fixture loop on: fixture processing, then
discussion rotation. -/
def runCycle (env : Env) (ledger : List String) (fxs : List FixtureResponse) : CycleState :=
  discussionStep env (runFixtures env (initState ledger) fxs)

/-! ## lfc.py — the lineup-enrichment task (`update_task`, lines 121-146) -/

/-- Modelled from the spec: `LINEUP_MINUTES_BEFORE_KICKOFF` is imported by
lfc.py from rapidapi.py but is not defined anywhere in the sources
provided; the spec fixes only that it is a tunable lead (minutes before
kickoff), and the post body's "Check back 30m before kickoff" placeholder
indicates 30. -/
def LINEUP_MINUTES_BEFORE_KICKOFF : Int := 30

/-- The duration of the enrichment task's initial sleep (lfc.py line 123),
computed from a fresh `utcnow()` reading taken when the task runs. -/
def lineupSleepSeconds (kickoff now : Int) : Int :=
  (kickoff - now) - LINEUP_MINUTES_BEFORE_KICKOFF * 60

/-- The visible outcome of one `get_lineups` call: either the call raised
(network error or response-validation error — anything that is not a
`ValueError` from `get_team_lineup`), or it returned a `LineupResponse`. -/
inductive FetchOutcome where
  | fetchError
  | response (r : LineupResponse)
deriving DecidableEq, Repr

/-- What a run of the enrichment task did: how many `get_lineups` calls
were made, how many `edit_post` calls were issued, and whether an
exception escaped the task. -/
structure TaskRun where
  fetches : Nat
  edits : Nat
  escaped : Bool
deriving DecidableEq, Repr

/-- The `for _ in range(5)` retry loop of `update_task` (lfc.py lines
125-145).  Only the `ValueError` from `get_team_lineup` (no lineup for the
tracked team yet) is caught and retried; an error from `get_lineups`
itself escapes, as does the `ValueError` raised by `format_lineup` on an
empty starting eleven (both are outside the `try`).  A successful
`format_lineup` leads to the `edit_post` call and `return`. -/
def lineupLoop (outcomes : Nat → FetchOutcome) :
    Nat → Nat → Nat → Nat → TaskRun
  | 0, _, fetches, edits => ⟨fetches, edits, false⟩
  | n+1, i, fetches, edits =>
    match outcomes i with
    | .fetchError => ⟨fetches + 1, edits, true⟩
    | .response r =>
      match r.get_team_lineup RAPID_API_TEAM_ID with
      | none => lineupLoop outcomes n (i+1) (fetches+1) edits
      | some l =>
        match l.format_lineup with
        | none => ⟨fetches + 1, edits, true⟩
        | some _ => ⟨fetches + 1, edits + 1, false⟩

/-- `update_task`'s retry phase, from the first `get_lineups` call on,
driven by the successive outcomes of the fetch attempts. -/
def update_task (outcomes : Nat → FetchOutcome) : TaskRun :=
  lineupLoop outcomes 5 0 0 0

/-- The "not yet available" signal: the fetch returned a response, but it
contains no lineup for the tracked team. -/
def isNotYetAvailable : FetchOutcome → Bool
  | .fetchError => false
  | .response r => (r.get_team_lineup RAPID_API_TEAM_ID).isNone

/-! ## Named helpers and concrete data used in the theorems below -/

/-- The fixture keys of a discovery batch. -/
def batchKeys (fxs : List FixtureResponse) : List String :=
  fxs.map (fun z => fixture_key z.fixture.id)

/-- The unpin calls the discussion rotation issues. -/
def unpinEvents (env : Env) : List Event :=
  (discussionPostsToUnpin env).map (fun pv => Event.unpin pv.post.id)

/-- Whether a fixture contributes an entry to `format_form`'s output. -/
def hasFormEntry (team_id : Nat) (fx : FixtureResponse) : Bool :=
  (formEntry team_id fx).isSome

/-- Kickoff of `a` strictly before kickoff of `b`. -/
def dateLT (a b : FixtureResponse) : Prop :=
  a.fixture.date < b.fixture.date

/-- Kickoff of `a` strictly after kickoff of `b` (most-recent-first order). -/
def dateGT (a b : FixtureResponse) : Prop :=
  b.fixture.date < a.fixture.date

instance : ∀ a b, Decidable (dateLT a b) := fun a b => by unfold dateLT; infer_instance

instance : ∀ a b, Decidable (dateGT a b) := fun a b => by unfold dateGT; infer_instance

/-- An upcoming fixture (Liverpool vs Everton) with the given id and
kickoff time. -/
def mkUpcoming (id : Nat) (date : Int) : FixtureResponse :=
  ⟨⟨date, id, none, ⟨"Not Started", "NS"⟩, date, ⟨"Liverpool", "Anfield"⟩⟩,
   ⟨"England", 39, "Premier League", "Regular Season - 7", 2025⟩,
   ⟨⟨50, "Everton", none⟩, ⟨40, "Liverpool", none⟩⟩,
   ⟨none, none⟩⟩

/-- A finished fixture (home win for Liverpool) with the given id and
kickoff time. -/
def mkFinished (id : Nat) (date : Int) : FixtureResponse :=
  ⟨⟨date, id, some "M. Oliver", ⟨"Match Finished", "FT"⟩, date, ⟨"Liverpool", "Anfield"⟩⟩,
   ⟨"England", 39, "Premier League", "Regular Season - 7", 2025⟩,
   ⟨⟨50, "Everton", some false⟩, ⟨40, "Liverpool", some true⟩⟩,
   ⟨some 0, some 2⟩⟩

/-- The constant clock reading 0 at every call. -/
def clockZero : Nat → Int := fun _ => 0

/-- A clock that reads 0 first and 10000 at every later call. -/
def clockSkew : Nat → Int := fun i => if i = 0 then 0 else 10000

/-- A clock that reads 0 for the first three calls and 42 afterwards. -/
def clockTail : Nat → Int := fun i => if i < 3 then 0 else 42

/-- Baseline environment: clock pinned at 0, no collaborator failures, no
recent posts listed, new discussion post id 777. -/
def baseEnv : Env :=
  ⟨clockZero, fun _ => false, fun _ => false, [], "lfcbot", 777⟩

/-- Environment in which every `publish_post` call raises. -/
def envAbort : Env := { baseEnv with publishFails := fun _ => true }

/-- Environment whose clock drifts after the first reading. -/
def envSkew : Env := { baseEnv with clock := clockSkew }

/-- A prior bot-authored discussion post (id 9). -/
def discPostA : PostView :=
  ⟨⟨9, "Weekly Discussion Thread - Sep 29, 2025", 11742⟩, ⟨1, "lfcbot"⟩⟩

/-- Another prior bot-authored discussion post (id 8). -/
def discPostB : PostView :=
  ⟨⟨8, "Weekly Discussion Thread - Oct 06, 2025", 11742⟩, ⟨1, "lfcbot"⟩⟩

/-- A listed post that is neither bot-authored nor a discussion thread. -/
def otherPost : PostView :=
  ⟨⟨7, "[Match Thread] Liverpool vs Everton", 11742⟩, ⟨2, "someone"⟩⟩

/-- Environment whose community listing holds two bot-authored discussion
posts and one unrelated post. -/
def envDisc : Env := { baseEnv with recentPosts := [discPostA, otherPost, discPostB] }

/-- A cycle state whose cycle has already died to an uncaught exception. -/
def abortedState : CycleState := ⟨[], [], 0, [], true⟩

/-- A starting eleven of one (enough for a non-empty lineup). -/
def sampleLineup : Lineup :=
  ⟨⟨40, "Liverpool", none⟩, ⟨1, "A. Slot", none⟩, "4-3-3",
   [⟨⟨289, "Alisson Becker", 1, some "G", some "1:1"⟩⟩], [⟨⟨306, "K. Kelleher", 62, none, none⟩⟩]⟩

/-- A lineup for the tracked team with an empty starting eleven. -/
def emptyXILineup : Lineup :=
  ⟨⟨40, "Liverpool", none⟩, ⟨1, "A. Slot", none⟩, "4-3-3", [], []⟩

/-- A lineup response that does not contain the tracked team yet. -/
def naResponse : LineupResponse := ⟨[]⟩

/-- A lineup response containing the tracked team's lineup. -/
def okResponse : LineupResponse := ⟨[sampleLineup]⟩

/-- A lineup response whose tracked-team lineup has an empty starting
eleven. -/
def emptyXIResponse : LineupResponse := ⟨[emptyXILineup]⟩

/-- Four "not yet available" outcomes followed by successes. -/
def outcomesSuccessAfter4 : Nat → FetchOutcome :=
  fun i => if i < 4 then FetchOutcome.response naResponse else FetchOutcome.response okResponse

/-- Every fetch returns "not yet available". -/
def outcomesAllNA : Nat → FetchOutcome := fun _ => FetchOutcome.response naResponse

/-- Every fetch raises. -/
def outcomesAllError : Nat → FetchOutcome := fun _ => FetchOutcome.fetchError

/-- Two "not yet available" outcomes, then a raising fetch. -/
def outcomesErrorAt2 : Nat → FetchOutcome :=
  fun i => if i < 2 then FetchOutcome.response naResponse else FetchOutcome.fetchError

/-- The first fetch already finds the tracked team, with an empty starting
eleven. -/
def outcomesEmptyXI : Nat → FetchOutcome := fun _ => FetchOutcome.response emptyXIResponse

/-! ## Helper lemmas about the enrichment retry loop -/

theorem notYetAvailable_spec (o : FetchOutcome) (h : isNotYetAvailable o = true) :
    ∃ r, o = FetchOutcome.response r ∧ r.get_team_lineup RAPID_API_TEAM_ID = none := by
  cases o with
  | fetchError => simp [isNotYetAvailable] at h
  | response r =>
    refine ⟨r, rfl, ?_⟩
    simpa [isNotYetAvailable, Option.isNone_iff_eq_none] using h

theorem lineupLoop_na_run (outcomes : Nat → FetchOutcome) :
    ∀ (n k f e : Nat), (∀ j, j < n → isNotYetAvailable (outcomes (k + j)) = true) →
      lineupLoop outcomes n k f e = ⟨f + n, e, false⟩ := by
  intro n
  induction n with
  | zero => intro k f e _; simp [lineupLoop]
  | succ n ih =>
    intro k f e h
    obtain ⟨r, hr, hn⟩ := notYetAvailable_spec _ (by simpa using h 0 (Nat.succ_pos n))
    have harg : ∀ j, j < n → isNotYetAvailable (outcomes (k + 1 + j)) = true := by
      intro j hj
      have hx : k + 1 + j = k + (j + 1) := by omega
      rw [hx]
      exact h (j + 1) (by omega)
    have hrec := ih (k + 1) (f + 1) e harg
    have hcount : f + 1 + n = f + (n + 1) := by omega
    simp only [lineupLoop, hr, hn, hrec, hcount]

theorem lineupLoop_success_at (outcomes : Nat → FetchOutcome) :
    ∀ (n i k f e : Nat) (r : LineupResponse) (L : Lineup) (s : String), i < n →
      (∀ j, j < i → isNotYetAvailable (outcomes (k + j)) = true) →
      outcomes (k + i) = FetchOutcome.response r →
      r.get_team_lineup RAPID_API_TEAM_ID = some L →
      L.format_lineup = some s →
      lineupLoop outcomes n k f e = ⟨f + i + 1, e + 1, false⟩ := by
  intro n
  induction n with
  | zero => intro i k f e r L s hi; exact absurd hi (Nat.not_lt_zero i)
  | succ n ih =>
    intro i k f e r L s hi hNA hres hfind hfmt
    cases i with
    | zero =>
      have hres' : outcomes k = FetchOutcome.response r := by simpa using hres
      simp only [lineupLoop, hres', hfind, hfmt]
    | succ i =>
      obtain ⟨r0, hr0, hn0⟩ := notYetAvailable_spec _ (by simpa using hNA 0 (Nat.succ_pos i))
      have harg : ∀ j, j < i → isNotYetAvailable (outcomes (k + 1 + j)) = true := by
        intro j hj
        have hx : k + 1 + j = k + (j + 1) := by omega
        rw [hx]
        exact hNA (j + 1) (by omega)
      have hres' : outcomes (k + 1 + i) = FetchOutcome.response r := by
        have hx : k + 1 + i = k + (i + 1) := by omega
        rw [hx]; exact hres
      have hrec := ih i (k + 1) (f + 1) e r L s (by omega) harg hres' hfind hfmt
      have hcount : f + 1 + i + 1 = f + (i + 1) + 1 := by omega
      simp only [lineupLoop, hr0, hn0, hrec, hcount]

theorem lineupLoop_error_at (outcomes : Nat → FetchOutcome) :
    ∀ (n i k f e : Nat), i < n →
      (∀ j, j < i → isNotYetAvailable (outcomes (k + j)) = true) →
      outcomes (k + i) = FetchOutcome.fetchError →
      lineupLoop outcomes n k f e = ⟨f + i + 1, e, true⟩ := by
  intro n
  induction n with
  | zero => intro i k f e hi; exact absurd hi (Nat.not_lt_zero i)
  | succ n ih =>
    intro i k f e hi hNA herr
    cases i with
    | zero =>
      have herr' : outcomes k = FetchOutcome.fetchError := by simpa using herr
      simp only [lineupLoop, herr']
    | succ i =>
      obtain ⟨r0, hr0, hn0⟩ := notYetAvailable_spec _ (by simpa using hNA 0 (Nat.succ_pos i))
      have harg : ∀ j, j < i → isNotYetAvailable (outcomes (k + 1 + j)) = true := by
        intro j hj
        have hx : k + 1 + j = k + (j + 1) := by omega
        rw [hx]
        exact hNA (j + 1) (by omega)
      have herr' : outcomes (k + 1 + i) = FetchOutcome.fetchError := by
        have hx : k + 1 + i = k + (i + 1) := by omega
        rw [hx]; exact herr
      have hrec := ih i (k + 1) (f + 1) e (by omega) harg herr'
      have hcount : f + 1 + i + 1 = f + (i + 1) + 1 := by omega
      simp only [lineupLoop, hr0, hn0, hrec, hcount]

/-! ## Claim theorems -/

/-- C3: in the lineup-enrichment task, a sequence of four "not yet
available" lineup responses followed by one response containing the
tracked team's (formattable) lineup yields exactly one post edit after
exactly five fetch attempts; five consecutive "not yet available"
responses yield zero edits, and the task terminates with no error
escaping it in either case. -/
theorem lineup_poll_retry_counts (outcomes : Nat → FetchOutcome) :
    (∀ (r : LineupResponse) (L : Lineup) (s : String),
      (∀ j, j < 4 → isNotYetAvailable (outcomes j) = true) →
      outcomes 4 = FetchOutcome.response r →
      r.get_team_lineup RAPID_API_TEAM_ID = some L →
      L.format_lineup = some s →
      update_task outcomes = ⟨5, 1, false⟩)
    ∧ ((∀ j, j < 5 → isNotYetAvailable (outcomes j) = true) →
      update_task outcomes = ⟨5, 0, false⟩) := by
  constructor
  · intro r L s hNA hres hfind hfmt
    have := lineupLoop_success_at outcomes 5 4 0 0 0 r L s (by omega)
      (fun j hj => by simpa using hNA j hj) (by simpa using hres) hfind hfmt
    simpa [update_task] using this
  · intro hNA
    have := lineupLoop_na_run outcomes 5 0 0 0 (fun j hj => by simpa using hNA j hj)
    simpa [update_task] using this

/-- C3 witness: concrete outcome sequences realising both scenarios. -/
theorem lineup_poll_retry_counts_witness :
    update_task outcomesSuccessAfter4 = ⟨5, 1, false⟩
    ∧ update_task outcomesAllNA = ⟨5, 0, false⟩ :=
  ⟨(lineup_poll_retry_counts outcomesSuccessAfter4).1 okResponse sampleLineup
      "Alisson Becker;\n\nBench: K. Kelleher"
      (by decide) (by decide) (by decide) (by decide),
   (lineup_poll_retry_counts outcomesAllNA).2 (by decide)⟩

/-- C5 counterexample: at the first attempt a `get_lineups` failure that
is not the "not yet available" signal makes the task escape after a single
fetch with no retry, unlike the "not yet available" signal, which is
retried to the five-attempt cap.  This refutes the claim that any other
failure of a fetch attempt is treated the same as "not yet available". -/
theorem lineup_poll_error_not_retried_cex :
    update_task outcomesAllError = ⟨1, 0, true⟩
    ∧ update_task outcomesAllNA = ⟨5, 0, false⟩ := by
  constructor <;> rfl

/-- C5 (amended): within the lineup poll loop, only the "not yet
available" signal (the `ValueError` from the team-lineup lookup) triggers
a retry; a failure of the `get_lineups` call itself — any collaborator
error that is not that signal — escapes the task at that attempt, with no
further fetches and no edit. -/
theorem lineup_poll_error_escapes (outcomes : Nat → FetchOutcome) (i : Nat)
    (hi : i < 5)
    (hbefore : ∀ j, j < i → isNotYetAvailable (outcomes j) = true)
    (herr : outcomes i = FetchOutcome.fetchError) :
    update_task outcomes = ⟨i + 1, 0, true⟩ := by
  have := lineupLoop_error_at outcomes 5 i 0 0 0 hi
    (fun j hj => by simpa using hbefore j hj) (by simpa using herr)
  simpa [update_task] using this

/-- C5 witness: two "not yet available" outcomes and then a raising fetch
escape after exactly three fetches. -/
theorem lineup_poll_error_escapes_witness :
    update_task outcomesErrorAt2 = ⟨3, 0, true⟩ :=
  lineup_poll_error_escapes outcomesErrorAt2 2 (by decide) (by decide) (by decide)

/-- C8: `format_form` applied to an empty fixture list is total and
returns the bare fenced form block — header and footer delimiters with no
entries in between. -/
theorem format_form_empty (team_id : Nat) :
    format_form [] team_id = "```\n```" ∧ formEntries [] team_id = [] := by
  constructor <;> rfl

/-- C10: `Lineup.format_lineup` is well-defined only for a non-empty
starting eleven: an empty `startXI` makes the row-string list empty, so
the `max` over line lengths raises (`none` here); inside the enrichment
task this failure happens outside the `try`, so it aborts the edit — the
task escapes after that fetch with no edit issued, rather than producing
an empty lineup block. -/
theorem format_lineup_empty_startXI (l : Lineup) (h : l.startXI = []) :
    l.format_lineup = none
    ∧ (∀ (outcomes : Nat → FetchOutcome) (r : LineupResponse),
        outcomes 0 = FetchOutcome.response r →
        r.get_team_lineup RAPID_API_TEAM_ID = some l →
        update_task outcomes = ⟨1, 0, true⟩) := by
  have hfmt : l.format_lineup = none := by
    simp [Lineup.format_lineup, startingRowStrings, sortedDistinctDesc, h]
  refine ⟨hfmt, ?_⟩
  intro outcomes r h0 hfind
  show lineupLoop outcomes (4 + 1) 0 0 0 = ⟨1, 0, true⟩
  simp only [lineupLoop, h0, hfind, hfmt]

/-- C10 witness: the empty-eleven lineup and an outcome sequence whose
first fetch returns it. -/
theorem format_lineup_empty_startXI_witness :
    emptyXILineup.format_lineup = none
    ∧ update_task outcomesEmptyXI = ⟨1, 0, true⟩ :=
  ⟨(format_lineup_empty_startXI emptyXILineup rfl).1,
   (format_lineup_empty_startXI emptyXILineup rfl).2 outcomesEmptyXI emptyXIResponse
      rfl (by decide)⟩

theorem formFold_filterMap (team_id : Nat) :
    ∀ (l : List FixtureResponse) (acc : List String),
      l.foldl (fun acc fx => match formEntry team_id fx with
        | some e => acc ++ [e]
        | none => acc) acc
      = acc ++ l.filterMap (formEntry team_id) := by
  intro l
  induction l with
  | nil => intro acc; simp
  | cons fx l ih =>
    intro acc
    rw [List.foldl_cons, ih]
    cases hfe : formEntry team_id fx <;>
      simp [List.filterMap_cons, hfe, List.append_assoc]

/-- C7: the entries of `format_form`'s output appear in the reverse of the
input list's order, so for an input delivered most-recent-first (strictly
descending kickoff dates) the contributing fixtures appear in strictly
chronological order, oldest first. -/
theorem format_form_chronological (fixtures : List FixtureResponse) (team_id : Nat) :
    format_form fixtures team_id
      = String.intercalate "\n" (["```"] ++ formEntries fixtures team_id ++ ["```"])
    ∧ formEntries fixtures team_id = (fixtures.filterMap (formEntry team_id)).reverse
    ∧ (fixtures.Pairwise dateGT →
        ((fixtures.filter (hasFormEntry team_id)).reverse).Pairwise dateLT) := by
  refine ⟨rfl, ?_, ?_⟩
  · rw [formEntries, formFold_filterMap team_id, List.nil_append, List.filterMap_reverse]
  · intro h
    rw [List.pairwise_reverse]
    exact (h.sublist (List.filter_sublist fixtures)).imp (fun hab => hab)

/-- C7 witness: a three-element most-recent-first batch of finished
fixtures. -/
theorem format_form_chronological_witness :
    List.Pairwise dateGT [mkFinished 603 300, mkFinished 602 200, mkFinished 601 100]
    ∧ formEntries [mkFinished 603 300, mkFinished 602 200, mkFinished 601 100] 40
        = ([mkFinished 603 300, mkFinished 602 200, mkFinished 601 100].filterMap (formEntry 40)).reverse
    ∧ (([mkFinished 603 300, mkFinished 602 200, mkFinished 601 100].filter (hasFormEntry 40)).reverse).Pairwise dateLT :=
  ⟨by decide,
   (format_form_chronological [mkFinished 603 300, mkFinished 602 200, mkFinished 601 100] 40).2.1,
   (format_form_chronological [mkFinished 603 300, mkFinished 602 200, mkFinished 601 100] 40).2.2 (by decide)⟩

theorem splitlinesAux_no_newline (x : List Char) :
    '\n' ∉ x → ∀ (acc r : List Char),
      splitlinesAux (x ++ r) acc = splitlinesAux r (acc ++ x) := by
  induction x with
  | nil => intro _ acc r; simp
  | cons c cs ih =>
    intro hx acc r
    have hc : c ≠ '\n' := by rintro rfl; exact hx (List.mem_cons_self _ _)
    have hcs : '\n' ∉ cs := fun h => hx (List.mem_cons_of_mem _ h)
    rw [List.cons_append]
    simp only [splitlinesAux, if_neg hc]
    rw [ih hcs (acc ++ [c]) r]
    simp [List.append_assoc]

theorem splitlinesAux_newline_split (x : List Char) :
    ∀ (acc r : List Char), ∃ pre,
      splitlinesAux (x ++ '\n' :: r) acc = pre ++ splitlinesAux r [] := by
  induction x with
  | nil =>
    intro acc r
    exact ⟨[acc], by simp [splitlinesAux]⟩
  | cons c cs ih =>
    intro acc r
    by_cases hc : c = '\n'
    · subst hc
      obtain ⟨pre, hp⟩ := ih [] r
      refine ⟨acc :: pre, ?_⟩
      rw [List.cons_append]
      simp only [splitlinesAux, if_pos rfl]
      rw [hp, List.cons_append]
      simp
    · obtain ⟨pre, hp⟩ := ih (acc ++ [c]) r
      refine ⟨pre, ?_⟩
      rw [List.cons_append]
      simp only [splitlinesAux, if_neg hc]
      exact hp

theorem joinLines_cons (x y : List Char) (L : List (List Char)) :
    joinLines (x :: y :: L) = x ++ '\n' :: joinLines (y :: L) := rfl

theorem splitlines_single (x : List Char) (hne : x ≠ []) (hnl : '\n' ∉ x) :
    splitlines x = [x] := by
  have h := splitlinesAux_no_newline x hnl [] []
  rw [List.append_nil] at h
  rw [splitlines, h]
  simp [splitlinesAux, hne]

theorem mem_splitlines_joinLines (x : List Char) (hne : x ≠ []) (hnl : '\n' ∉ x) :
    ∀ (L : List (List Char)), x ∈ L → x ∈ splitlines (joinLines L) := by
  intro L
  induction L with
  | nil => intro h; cases h
  | cons y L ih =>
    intro hmem
    rcases List.mem_cons.mp hmem with h | h
    · subst h
      cases L with
      | nil =>
        rw [show joinLines [x] = x from rfl, splitlines_single x hne hnl]
        exact List.mem_singleton_self x
      | cons z L' =>
        rw [joinLines_cons, splitlines,
          splitlinesAux_no_newline x hnl [] ('\n' :: joinLines (z :: L'))]
        simp [splitlinesAux]
    · have hLne : L ≠ [] := by rintro rfl; cases h
      cases L with
      | nil => exact absurd rfl hLne
      | cons z L' =>
        rw [joinLines_cons, splitlines]
        obtain ⟨pre, hp⟩ := splitlinesAux_newline_split y [] (joinLines (z :: L'))
        rw [hp]
        exact List.mem_append_right _ (ih h)

theorem splitlines_joinLines :
    ∀ (L : List (List Char)), (∀ y ∈ L, y ≠ [] ∧ '\n' ∉ y) →
      splitlines (joinLines L) = L := by
  intro L
  induction L with
  | nil => intro _; rfl
  | cons x L ih =>
    intro h
    obtain ⟨hne, hnl⟩ := h x (List.mem_cons_self _ _)
    cases L with
    | nil => exact splitlines_single x hne hnl
    | cons y L' =>
      rw [joinLines_cons, splitlines,
        splitlinesAux_no_newline x hnl [] ('\n' :: joinLines (y :: L'))]
      simp only [List.nil_append, splitlinesAux, if_pos rfl]
      have hrest := ih (fun z hz => h z (List.mem_cons_of_mem _ hz))
      rw [splitlines] at hrest
      rw [hrest]
      simp

theorem asString_toList (s : String) : (s.toList).asString = s := by
  cases s; rfl

theorem mem_setAdd_self (s : List String) (k : String) : k ∈ setAdd s k := by
  by_cases h : k ∈ s <;> simp [setAdd, h]

theorem mem_setAdd (s : List String) (k k' : String) (h : k ∈ s) : k ∈ setAdd s k' := by
  by_cases h' : k' ∈ s <;> simp [setAdd, h', h]

theorem mem_deduperLoad_of_mem (posted : List String) (k : String)
    (hk : LineSafe k) (hmem : k ∈ posted) :
    k ∈ deduperLoad (deduperSave posted) := by
  obtain ⟨hne, hnl, hstrip⟩ := hk
  have h1 : k.toList ∈ posted.map String.toList := List.mem_map_of_mem _ hmem
  have h2 := mem_splitlines_joinLines k.toList hne hnl _ h1
  have h3 : (striplist k.toList).asString = k := by rw [hstrip, asString_toList]
  exact List.mem_map.mpr ⟨k.toList, h2, h3⟩

theorem deduperLoad_deduperSave (posted : List String)
    (h : ∀ k ∈ posted, LineSafe k) :
    deduperLoad (deduperSave posted) = posted := by
  have hyp : ∀ y ∈ posted.map String.toList, y ≠ [] ∧ '\n' ∉ y := by
    intro y hy
    obtain ⟨k, hk, rfl⟩ := List.mem_map.mp hy
    obtain ⟨hne, hnl, _⟩ := h k hk
    exact ⟨hne, hnl⟩
  rw [deduperLoad, deduperSave, splitlines_joinLines (posted.map String.toList) hyp,
    List.map_map]
  have hcongr : ∀ k ∈ posted, ((fun l => (striplist l).asString) ∘ String.toList) k = id k := by
    intro k hk
    obtain ⟨_, _, hstrip⟩ := h k hk
    simp only [Function.comp_apply, id_eq, hstrip, asString_toList]
  rw [List.map_congr_left hcongr, List.map_id]

/-- C2: after `record(fixture_key f)` — the `set.add` of `add_fixture`
together with the full-set rewrite of `_save` — the key is contained in
the in-memory set, stays contained after any later fixture or discussion
record, and a fresh `_load` of the saved file also contains it; moreover,
when every key in the set is line-safe (as all `fixture-`/`discussion-`
keys are), the save/load pair round-trips the whole set. -/
theorem record_fixture_persists (posted : List String) (f : Nat)
    (hsafe : LineSafe (fixture_key f)) :
    fixture_published (add_fixture posted f) f = true
    ∧ (∀ g, fixture_published (add_fixture (add_fixture posted f) g) f = true)
    ∧ (∀ t, fixture_published (add_discussion (add_fixture posted f) t) f = true)
    ∧ fixture_key f ∈ deduperLoad (deduperSave (add_fixture posted f))
    ∧ ((∀ k ∈ add_fixture posted f, LineSafe k) →
        deduperLoad (deduperSave (add_fixture posted f)) = add_fixture posted f) := by
  have hmem : fixture_key f ∈ add_fixture posted f := mem_setAdd_self posted (fixture_key f)
  refine ⟨?_, ?_, ?_, ?_, ?_⟩
  · simpa [fixture_published] using hmem
  · intro g
    simpa [fixture_published, add_fixture] using
      mem_setAdd (add_fixture posted f) (fixture_key f) (fixture_key g) hmem
  · intro t
    simpa [fixture_published, add_discussion] using
      mem_setAdd (add_fixture posted f) (fixture_key f) (discussion_key t) hmem
  · exact mem_deduperLoad_of_mem _ _ hsafe hmem
  · exact deduperLoad_deduperSave _

/-- C2 witness: recording fixture 501 on a one-key ledger. -/
theorem record_fixture_persists_witness :
    LineSafe (fixture_key 501)
    ∧ fixture_published (add_fixture ["discussion-2024-01-01"] 501) 501 = true
    ∧ fixture_published (add_fixture (add_fixture ["discussion-2024-01-01"] 501) 502) 501 = true
    ∧ fixture_published (add_discussion (add_fixture ["discussion-2024-01-01"] 501) 0) 501 = true
    ∧ fixture_key 501 ∈ deduperLoad (deduperSave (add_fixture ["discussion-2024-01-01"] 501))
    ∧ deduperLoad (deduperSave (add_fixture ["discussion-2024-01-01"] 501))
        = add_fixture ["discussion-2024-01-01"] 501 := by
  have h := record_fixture_persists ["discussion-2024-01-01"] 501 (by decide)
  exact ⟨by decide, h.1, h.2.1 502, h.2.2.1 0, h.2.2.2.1, h.2.2.2.2 (by decide)⟩

/-- C6: when the discussion gate passes (this week's Monday key not yet
recorded), the discussion step unpins exactly the listed recent posts that
are both bot-authored and discussion-titled, all of those unpins coming
before the pin of the newly published post; with zero such prior posts,
zero unpin calls are issued. -/
theorem discussion_rotation_unpins (env : Env) (st : CycleState)
    (hab : st.aborted = false)
    (hgate : discussion_published st.ledger (discussionMonday env st.clockIdx) = false) :
    (discussionStep env st).events
      = st.events ++ unpinEvents env
        ++ [Event.discussionPublish, Event.pin env.newDiscussionPostId]
    ∧ (discussionPostsToUnpin env = [] →
        (discussionStep env st).events
          = st.events ++ [Event.discussionPublish, Event.pin env.newDiscussionPostId]) := by
  have h1 : (discussionStep env st).events
      = st.events ++ unpinEvents env
        ++ [Event.discussionPublish, Event.pin env.newDiscussionPostId] := by
    simp [discussionStep, hab, hgate, unpinEvents]
  refine ⟨h1, fun hzero => ?_⟩
  rw [h1, unpinEvents, hzero]
  simp

/-- C6 witness: with two bot-authored discussion posts (ids 9 and 8) in
the listing both are unpinned, in listing order, before the new post's
pin; with an empty listing no unpin happens. -/
theorem discussion_rotation_unpins_witness :
    (discussionStep envDisc (initState [])).events
      = [Event.unpin 9, Event.unpin 8, Event.discussionPublish, Event.pin 777]
    ∧ (discussionStep baseEnv (initState [])).events
      = [Event.discussionPublish, Event.pin 777] := by
  constructor
  · have h := (discussion_rotation_unpins envDisc (initState []) rfl (by decide)).1
    rw [h]; decide
  · have h := (discussion_rotation_unpins baseEnv (initState []) rfl (by decide)).2 (by decide)
    rw [h]; decide

/-- C4 counterexample: with two due, unseen fixtures in the batch and a
publish failure on the first, the cycle aborts — the second fixture is
never evaluated (no publish attempt although it is inside the window and
unseen) and the discussion step is skipped (no discussion publish although
its gate is open).  This refutes the claim that an error during one
fixture's processing does not abort the rest of the batch or the
discussion-rotation step. -/
theorem fixture_error_aborts_rest_cex :
    (runCycle envAbort [] [mkUpcoming 501 0, mkUpcoming 502 0]).aborted = true
    ∧ (runCycle envAbort [] [mkUpcoming 501 0, mkUpcoming 502 0]).events
        = [Event.formFetch 40, Event.formFetch 50, Event.publish 501]
    ∧ Event.publish 502 ∉ (runCycle envAbort [] [mkUpcoming 501 0, mkUpcoming 502 0]).events
    ∧ Event.discussionPublish ∉ (runCycle envAbort [] [mkUpcoming 501 0, mkUpcoming 502 0]).events
    ∧ (mkUpcoming 502 0).fixture.date < envAbort.clock 1 + 4*3600
    ∧ fixture_published [] 502 = false
    ∧ discussion_published [] (discussionMonday envAbort 2) = false := by
  decide

/-- C4 (amended): an uncaught error while processing one fixture (such as
a failed publish) aborts the whole cycle: once the aborted flag is set the
remaining fixtures are not processed and the discussion step does
nothing, and a publish failure on a due, unseen fixture sets that flag.
Only the recent-form fetch is error-contained per fixture. -/
theorem fixture_error_aborts_rest (env : Env) (st : CycleState)
    (fx : FixtureResponse) (fxs : List FixtureResponse) :
    (st.aborted = true → runFixtures env st fxs = st ∧ discussionStep env st = st)
    ∧ (st.aborted = false →
        fx.fixture.date < env.clock st.clockIdx + 4*3600 →
        fixture_published st.ledger fx.fixture.id = false →
        env.publishFails fx.fixture.id = true →
        (processFixture env st fx).aborted = true) := by
  constructor
  · intro hab
    constructor
    · induction fxs with
      | nil => rfl
      | cons z zs ih =>
        have hz : processFixture env st z = st := by simp [processFixture, hab]
        calc runFixtures env st (z :: zs)
            = runFixtures env (processFixture env st z) zs := rfl
          _ = runFixtures env st zs := by rw [hz]
          _ = st := ih
    · simp [discussionStep, hab]
  · intro hab hdate hpub hfail
    have hdate' : fx.fixture.date < env.clock st.clockIdx + 14400 := by omega
    simp [processFixture, hab, hdate', hpub, hfail]

/-- C4 witness for the amended claim: the aborted state swallows a
remaining fixture and the discussion step, and a failing publish on a due
fixture aborts. -/
theorem fixture_error_aborts_rest_witness :
    runFixtures envAbort abortedState [mkUpcoming 502 0] = abortedState
    ∧ discussionStep envAbort abortedState = abortedState
    ∧ (processFixture envAbort (initState []) (mkUpcoming 501 0)).aborted = true := by
  have h := fixture_error_aborts_rest envAbort abortedState (mkUpcoming 501 0) [mkUpcoming 502 0]
  have h2 := fixture_error_aborts_rest envAbort (initState []) (mkUpcoming 501 0) []
  exact ⟨(h.1 rfl).1, (h.1 rfl).2, h2.2 rfl (by decide) (by decide) rfl⟩

theorem processFixture_clockIdx (env : Env) (st : CycleState) (fx : FixtureResponse) :
    (processFixture env st fx).clockIdx = st.clockIdx
    ∨ (processFixture env st fx).clockIdx = st.clockIdx + 1 := by
  unfold processFixture
  by_cases hab : st.aborted = true
  · simp [hab]
  · simp only [Bool.not_eq_true] at hab
    simp only [hab]
    split_ifs <;> simp

theorem processFixture_clock_congr (env : Env) (c1 c2 : Nat → Int) (st : CycleState)
    (fx : FixtureResponse) (h : c1 st.clockIdx = c2 st.clockIdx) :
    processFixture { env with clock := c1 } st fx
      = processFixture { env with clock := c2 } st fx := by
  simp only [processFixture, h]

theorem runFixtures_clock_congr (env : Env) (c1 c2 : Nat → Int) :
    ∀ (fxs : List FixtureResponse) (st : CycleState),
      (∀ j, j < fxs.length → c1 (st.clockIdx + j) = c2 (st.clockIdx + j)) →
      runFixtures { env with clock := c1 } st fxs = runFixtures { env with clock := c2 } st fxs
      ∧ (runFixtures { env with clock := c1 } st fxs).clockIdx ≤ st.clockIdx + fxs.length := by
  intro fxs
  induction fxs with
  | nil => intro st _; exact ⟨rfl, Nat.le_add_right _ _⟩
  | cons z zs ih =>
    intro st h
    have h0 : c1 st.clockIdx = c2 st.clockIdx := by simpa using h 0 (by simp)
    have hstep := processFixture_clock_congr env c1 c2 st z h0
    have hidx := processFixture_clockIdx { env with clock := c1 } st z
    have hnext : ∀ j, j < zs.length →
        c1 ((processFixture { env with clock := c1 } st z).clockIdx + j)
          = c2 ((processFixture { env with clock := c1 } st z).clockIdx + j) := by
      intro j hj
      rcases hidx with he | he <;> rw [he]
      · exact h j (by simp; omega)
      · have hx : st.clockIdx + 1 + j = st.clockIdx + (j + 1) := by omega
        rw [hx]
        exact h (j + 1) (by simp; omega)
    obtain ⟨heq, hle⟩ := ih (processFixture { env with clock := c1 } st z) hnext
    constructor
    · calc runFixtures { env with clock := c1 } st (z :: zs)
          = runFixtures { env with clock := c1 } (processFixture { env with clock := c1 } st z) zs := rfl
        _ = runFixtures { env with clock := c2 } (processFixture { env with clock := c1 } st z) zs := heq
        _ = runFixtures { env with clock := c2 } (processFixture { env with clock := c2 } st z) zs := by
            rw [hstep]
        _ = runFixtures { env with clock := c2 } st (z :: zs) := rfl
    · have : (runFixtures { env with clock := c1 } st (z :: zs)).clockIdx
          = (runFixtures { env with clock := c1 } (processFixture { env with clock := c1 } st z) zs).clockIdx := rfl
      rw [this]
      simp only [List.length_cons]
      rcases hidx with he | he <;> rw [he] at hle <;> omega

theorem discussionStep_clock_congr (env : Env) (c1 c2 : Nat → Int) (st : CycleState)
    (h0 : c1 st.clockIdx = c2 st.clockIdx)
    (h1 : c1 (st.clockIdx + 1) = c2 (st.clockIdx + 1)) :
    discussionStep { env with clock := c1 } st = discussionStep { env with clock := c2 } st := by
  simp only [discussionStep, discussionMonday, discussionPostsToUnpin, h0, h1]

/-- C9 counterexample: two runs whose clocks agree on the initial reading
but drift afterwards make different decisions: under the drifted clock the
second fixture's 4-hour window gate — which reads the clock afresh —
passes and the fixture is published, under the steady clock it is not.
This refutes the claim that the current time is captured once per cycle
and that one value is reused for every comparison of the pass. -/
theorem fresh_clock_reads_cex :
    envSkew.clock 0 = baseEnv.clock 0
    ∧ (runCycle envSkew [] [mkUpcoming 501 100000, mkUpcoming 502 20000]).events
        ≠ (runCycle baseEnv [] [mkUpcoming 501 100000, mkUpcoming 502 20000]).events := by
  decide

/-- C9 (amended): the coordinator re-reads the clock at every comparison —
one fresh reading per fixture's window gate and two further readings for
the Monday computation — so a cycle's decisions are a function of all of
those readings: two runs whose clocks agree on the first
`batch length + 2` readings behave identically, while (per the
counterexample) agreement on the initial reading alone does not
suffice. -/
theorem cycle_clock_extensional (env : Env) (c1 c2 : Nat → Int)
    (ledger : List String) (fxs : List FixtureResponse)
    (h : ∀ i, i < fxs.length + 2 → c1 i = c2 i) :
    runCycle { env with clock := c1 } ledger fxs
      = runCycle { env with clock := c2 } ledger fxs := by
  have hfx : ∀ j, j < fxs.length →
      c1 ((initState ledger).clockIdx + j) = c2 ((initState ledger).clockIdx + j) := by
    intro j hj
    simpa [initState] using h j (by omega)
  obtain ⟨heq, hle⟩ := runFixtures_clock_congr env c1 c2 fxs (initState ledger) hfx
  have hle' : (runFixtures { env with clock := c1 } (initState ledger) fxs).clockIdx ≤ fxs.length := by
    simpa [initState] using hle
  show discussionStep { env with clock := c1 } (runFixtures { env with clock := c1 } (initState ledger) fxs)
      = discussionStep { env with clock := c2 } (runFixtures { env with clock := c2 } (initState ledger) fxs)
  rw [← heq]
  exact discussionStep_clock_congr env c1 c2 _ (h _ (by omega)) (h _ (by omega))

/-- C9 witness for the amended claim: two clocks that agree on the first
three readings (all a one-fixture cycle consumes) yield identical
cycles even though they differ later. -/
theorem cycle_clock_extensional_witness :
    runCycle { baseEnv with clock := clockZero } [] [mkUpcoming 501 0]
      = runCycle { baseEnv with clock := clockTail } [] [mkUpcoming 501 0] :=
  cycle_clock_extensional baseEnv clockZero clockTail [] [mkUpcoming 501 0] (by decide)

theorem discussionStep_publish_mem (env : Env) (st : CycleState) (i : Nat) :
    Event.publish i ∈ (discussionStep env st).events ↔ Event.publish i ∈ st.events := by
  unfold discussionStep
  by_cases hab : st.aborted = true
  · simp [hab]
  · simp only [Bool.not_eq_true] at hab
    simp only [hab]
    split_ifs <;> simp

theorem processFixture_spec (env : Env) (st : CycleState) (fx : FixtureResponse)
    (hab : st.aborted = false) (hpub : env.publishFails fx.fixture.id = false) :
    (processFixture env st fx).aborted = false
    ∧ (∀ i, Event.publish i ∈ (processFixture env st fx).events ↔
        (Event.publish i ∈ st.events
          ∨ (i = fx.fixture.id ∧ fx.fixture.date < env.clock st.clockIdx + 14400
              ∧ fixture_key fx.fixture.id ∉ st.ledger)))
    ∧ (∀ k, k ≠ fixture_key fx.fixture.id →
        (k ∈ (processFixture env st fx).ledger ↔ k ∈ st.ledger)) := by
  unfold processFixture
  simp only [hab, Bool.false_eq_true, if_false]
  by_cases hdate : fx.fixture.date < env.clock st.clockIdx + 14400
  · by_cases hdup : fixture_published st.ledger fx.fixture.id = false
    · have hmem : fixture_key fx.fixture.id ∉ st.ledger := by
        simpa [fixture_published] using hdup
      by_cases hform : env.formFails fx.teams.home.id = true
      · simp only [hdate, hdup, hform, hpub, if_true, if_false, Bool.false_eq_true,
          if_pos, ite_true, ite_false]
        refine ⟨by simp [hdate], fun i => ?_, fun k hk => ?_⟩
        · simp [List.mem_append, hdate, hmem]
        · simp [add_fixture, setAdd, hmem, List.mem_append, hk, hdate]
      · simp only [hdate, hdup, hform, hpub, if_true, if_false, Bool.false_eq_true,
          if_pos, ite_true, ite_false]
        refine ⟨by simp [hdate], fun i => ?_, fun k hk => ?_⟩
        · simp [List.mem_append, hdate, hmem]
        · simp [add_fixture, setAdd, hmem, List.mem_append, hk, hdate]
    · have hmem : fixture_key fx.fixture.id ∈ st.ledger := by
        simp only [fixture_published, Bool.not_eq_false] at hdup
        simpa using hdup
      simp [hdate, hdup, hmem]
  · simp [hdate]

theorem batchKeys_cons (z : FixtureResponse) (zs : List FixtureResponse) :
    batchKeys (z :: zs) = fixture_key z.fixture.id :: batchKeys zs := rfl

theorem mem_batchKeys_of_mem (w : FixtureResponse) (zs : List FixtureResponse)
    (hw : w ∈ zs) : fixture_key w.fixture.id ∈ batchKeys zs :=
  List.mem_map_of_mem _ hw

theorem runFixtures_publish_preserved (env : Env) (hpub : ∀ i, env.publishFails i = false) :
    ∀ (zs : List FixtureResponse) (st : CycleState) (i : Nat),
      st.aborted = false →
      fixture_key i ∉ batchKeys zs →
      (Event.publish i ∈ (runFixtures env st zs).events ↔ Event.publish i ∈ st.events) := by
  intro zs
  induction zs with
  | nil => intro st i _ _; exact Iff.rfl
  | cons z zs ih =>
    intro st i hab hkey
    obtain ⟨habZ, hpubmem, -⟩ := processFixture_spec env st z hab (hpub _)
    have hkeyz : fixture_key i ≠ fixture_key z.fixture.id := by
      intro h
      exact hkey (by rw [batchKeys_cons, h]; exact List.mem_cons_self _ _)
    have hkeyzs : fixture_key i ∉ batchKeys zs := by
      intro h
      exact hkey (by rw [batchKeys_cons]; exact List.mem_cons_of_mem _ h)
    have h1 : runFixtures env st (z :: zs) = runFixtures env (processFixture env st z) zs := rfl
    rw [h1, ih (processFixture env st z) i habZ hkeyzs, hpubmem i]
    constructor
    · rintro (h | ⟨rfl, -, -⟩)
      · exact h
      · exact absurd rfl hkeyz
    · exact Or.inl

theorem runFixtures_publish_iff (env : Env) (now : Int)
    (hclock : ∀ i, env.clock i = now)
    (hpub : ∀ i, env.publishFails i = false) :
    ∀ (fxs : List FixtureResponse) (st : CycleState) (ledger0 : List String),
      st.aborted = false →
      (batchKeys fxs).Nodup →
      (∀ z ∈ fxs, (fixture_key z.fixture.id ∈ st.ledger ↔ fixture_key z.fixture.id ∈ ledger0)) →
      (∀ z ∈ fxs, Event.publish z.fixture.id ∉ st.events) →
      ∀ fx ∈ fxs,
        (Event.publish fx.fixture.id ∈ (runFixtures env st fxs).events
          ↔ (fx.fixture.date < now + 14400 ∧ fixture_key fx.fixture.id ∉ ledger0)) := by
  intro fxs
  induction fxs with
  | nil => intro st l0 _ _ _ _ fx hfx; exact absurd hfx (List.not_mem_nil fx)
  | cons z zs ih =>
    intro st ledger0 hab hnd hled hev fx hfx
    obtain ⟨habZ, hpubmem, hledkeep⟩ := processFixture_spec env st z hab (hpub _)
    have hndz : fixture_key z.fixture.id ∉ batchKeys zs := by
      rw [batchKeys_cons] at hnd
      exact (List.nodup_cons.mp hnd).1
    have hndzs : (batchKeys zs).Nodup := by
      rw [batchKeys_cons] at hnd
      exact (List.nodup_cons.mp hnd).2
    have h1 : runFixtures env st (z :: zs) = runFixtures env (processFixture env st z) zs := rfl
    rcases List.mem_cons.mp hfx with rfl | hfxzs
    · rw [h1, runFixtures_publish_preserved env hpub zs (processFixture env st fx)
        fx.fixture.id habZ hndz, hpubmem fx.fixture.id, hclock st.clockIdx]
      have hevz := hev fx (List.mem_cons_self _ _)
      have hledz := hled fx (List.mem_cons_self _ _)
      constructor
      · rintro (h | ⟨-, hd, hk⟩)
        · exact absurd h hevz
        · exact ⟨hd, fun hm => hk (hledz.mpr hm)⟩
      · rintro ⟨hd, hk⟩
        exact Or.inr ⟨rfl, hd, fun hm => hk (hledz.mp hm)⟩
    · refine ih (processFixture env st z) ledger0 habZ hndzs ?_ ?_ fx hfxzs
      · intro w hw
        have hne : fixture_key w.fixture.id ≠ fixture_key z.fixture.id := by
          intro h
          exact hndz (h ▸ mem_batchKeys_of_mem w zs hw)
        rw [hledkeep _ hne]
        exact hled w (List.mem_cons_of_mem _ hw)
      · intro w hw hm
        rcases (hpubmem _).mp hm with h | ⟨hid, -, -⟩
        · exact hev w (List.mem_cons_of_mem _ hw) h
        · apply hndz
          have hmm : fixture_key w.fixture.id ∈ batchKeys zs := mem_batchKeys_of_mem w zs hw
          rwa [hid] at hmm

/-- C1: in an error-free cycle whose clock reads `now`, a match-thread
publish for a fixture of the discovery batch (with duplicate-free fixture
keys) is attempted exactly when its kickoff is strictly earlier than
`now + 4` hours and its `fixture-` key is absent from the loaded ledger;
a fixture outside the window or already recorded gets no publish call
this cycle. -/
theorem fixture_gate_iff (env : Env) (now : Int) (ledger : List String)
    (fxs : List FixtureResponse) (fx : FixtureResponse)
    (hclock : ∀ i, env.clock i = now)
    (hpub : ∀ i, env.publishFails i = false)
    (hnd : (batchKeys fxs).Nodup)
    (hmem : fx ∈ fxs) :
    Event.publish fx.fixture.id ∈ (runCycle env ledger fxs).events
      ↔ (fx.fixture.date < now + 4*3600
          ∧ fixture_published ledger fx.fixture.id = false) := by
  rw [runCycle, discussionStep_publish_mem]
  rw [runFixtures_publish_iff env now hclock hpub fxs (initState ledger) ledger rfl hnd
    (fun z _ => Iff.rfl) (fun z _ => List.not_mem_nil _) fx hmem]
  simp [fixture_published]

/-- C1 witness: a single-fixture batch kicking off in 10000 seconds, an
empty loaded ledger, and a steady clock at 0. -/
theorem fixture_gate_iff_witness :
    Event.publish 501 ∈ (runCycle baseEnv [] [mkUpcoming 501 10000]).events
      ↔ ((mkUpcoming 501 10000).fixture.date < 0 + 4*3600
          ∧ fixture_published [] 501 = false) :=
  fixture_gate_iff baseEnv 0 [] [mkUpcoming 501 10000] (mkUpcoming 501 10000)
    (fun _ => rfl) (fun _ => rfl) (by decide) (by decide)
